import Mathlib

/-!
Verification development for the leaderboard/log performance-analysis tool.

The repository's core is a TypeScript normalization + metrics pipeline:
an instance-name parser (`src/utils/commonParserUtils.ts`), a log-line
parser (`src/utils/logParser.ts`), a leaderboard-payload parser, a
metrics engine (`calculateUnifiedMetrics`), an outlier analyzer
(`findProblemOutliers`) and a record store (`page.tsx`).

Modelling conventions:
- JavaScript numbers are modelled exactly by `JNum`: a rational for
  finite values plus explicit NaN / Infinity / -Infinity constructors.
  IEEE-754 rounding is not modelled (the claims under study concern
  null-vs-NaN distinctions, minima, ties and sentinels, none of which
  depend on rounding of decimal literals).
- Strings are manipulated through their character lists, so every
  definition is executable and kernel-reducible.
- `JSON.parse` / DOM extraction are environment I/O: the log parser is
  modelled on the per-line decode results (`Option LogEntry`, `none` for
  a line whose decode throws), and the leaderboard parser on the decoded
  payload (column names and entry rows).
- `uuidv4()` ids are external randomness carrying no semantics; the `id`
  field is omitted from the record model.
-/

/-- An unnormalized fraction with positive denominator: the exact value of a
finite JavaScript number. `Rat` is not used because its operations do not
reduce in the kernel; every `JRat` produced below keeps `d > 0`, and the
JavaScript comparisons are value comparisons by cross-multiplication. -/
structure JRat where
  n : Int
  d : Nat
deriving DecidableEq, Repr, Inhabited

namespace JRat

/-- Value equality of fractions (JavaScript `===` on finite numbers). -/
def eqv (a b : JRat) : Bool := a.n * (b.d : Int) == b.n * (a.d : Int)

/-- Value order on fractions (both denominators positive). -/
def ltv (a b : JRat) : Bool := a.n * (b.d : Int) < b.n * (a.d : Int)

def ofInt (i : Int) : JRat := ⟨i, 1⟩

def neg (a : JRat) : JRat := ⟨-a.n, a.d⟩

def add (a b : JRat) : JRat := ⟨a.n * (b.d : Int) + b.n * (a.d : Int), a.d * b.d⟩

def sub (a b : JRat) : JRat := add a (neg b)

/-- Division, for a divisor with non-zero numerator (the zero-divisor case is
handled at the `JNum` level). -/
def div (a b : JRat) : JRat :=
  if 0 ≤ b.n then ⟨a.n * (b.d : Int), a.d * b.n.natAbs⟩
  else ⟨-(a.n * (b.d : Int)), a.d * b.n.natAbs⟩

/-- Multiplication by a power of ten (scientific-notation exponents). -/
def mulPow10 (a : JRat) : Int → JRat
  | Int.ofNat k => ⟨a.n * ((10 ^ k : Nat) : Int), a.d⟩
  | Int.negSucc k => ⟨a.n, a.d * 10 ^ (k + 1)⟩

def isZero (a : JRat) : Bool := a.n == 0

end JRat

/-- A JavaScript number: a finite value (exact fraction), NaN, or ±Infinity. -/
inductive JNum where
  | num (q : JRat)
  | nan
  | inf
  | ninf
deriving DecidableEq, Repr, Inhabited

namespace JNum

/-- JavaScript `<` on numbers: any comparison with NaN is false. -/
def jlt : JNum → JNum → Bool
  | num a, num b => JRat.ltv a b
  | num _, inf => true
  | ninf, num _ => true
  | ninf, inf => true
  | _, _ => false

/-- JavaScript `>` on numbers. -/
def jgt (a b : JNum) : Bool := jlt b a

/-- JavaScript `===` on numbers: `NaN === NaN` is false. -/
def jeq : JNum → JNum → Bool
  | num a, num b => JRat.eqv a b
  | inf, inf => true
  | ninf, ninf => true
  | _, _ => false

/-- JavaScript `+` on numbers. -/
def jadd : JNum → JNum → JNum
  | nan, _ => nan
  | _, nan => nan
  | inf, ninf => nan
  | ninf, inf => nan
  | inf, _ => inf
  | _, inf => inf
  | ninf, _ => ninf
  | _, ninf => ninf
  | num a, num b => num (JRat.add a b)

/-- JavaScript unary minus. -/
def jneg : JNum → JNum
  | num a => num (JRat.neg a)
  | nan => nan
  | inf => ninf
  | ninf => inf

/-- JavaScript `-` on numbers. -/
def jsub (a b : JNum) : JNum := jadd a (jneg b)

/-- JavaScript `/` on numbers (a single zero is modelled; the signed-zero
distinction never matters on the code paths under study, where divisors are
positive counts or positive best scores). -/
def jdiv : JNum → JNum → JNum
  | nan, _ => nan
  | _, nan => nan
  | inf, inf => nan
  | inf, ninf => nan
  | ninf, inf => nan
  | ninf, ninf => nan
  | inf, num b => if b.n < 0 then ninf else inf
  | ninf, num b => if b.n < 0 then inf else ninf
  | num _, inf => num (JRat.ofInt 0)
  | num _, ninf => num (JRat.ofInt 0)
  | num a, num b =>
      if b.isZero then (if a.isZero then nan else if 0 < a.n then inf else ninf)
      else num (JRat.div a b)

end JNum

/-- Shorthand for a finite integer-valued JavaScript number. -/
def jn (i : Int) : JNum := JNum.num (JRat.ofInt i)

/-- Whitespace characters recognised by the model (the ASCII whitespace
actually occurring in the data; JavaScript's full WhiteSpace set also has
exotic Unicode members that never appear here). -/
def isWS (c : Char) : Bool := c = ' ' || c = '\t' || c = '\n' || c = '\r'

/-- Leading digit run of a character list, as a numeral value; `none` when
there is no leading digit. -/
def digitRunVal (cs : List Char) : Option Nat :=
  let ds := cs.takeWhile Char.isDigit
  if ds.isEmpty then none
  else some (ds.foldl (fun n c => n * 10 + (c.toNat - '0'.toNat)) 0)

/-- ECMAScript `parseInt(s, 10)`: skip whitespace, optional sign, then the
leading decimal-digit run; NaN (here `none`) when no digit follows.
Notably `parseInt("-5")  = -5` and `parseInt("12abc") = 12`. -/
def jsParseInt (cs : List Char) : Option Int :=
  let cs := cs.dropWhile isWS
  match cs with
  | '-' :: rest => (digitRunVal rest).map (fun n => -(n : Int))
  | '+' :: rest => (digitRunVal rest).map (fun n => (n : Int))
  | _ => (digitRunVal cs).map (fun n => (n : Int))

/-- Numeral value of a digit list. -/
def digitsVal (ds : List Char) : Nat :=
  ds.foldl (fun n c => n * 10 + (c.toNat - '0'.toNat)) 0

/-- Exponent part of a StrDecimalLiteral: `e`/`E` already consumed; an
incomplete exponent (no digits) is not part of the literal, contributing 0. -/
def jsParseExp (cs : List Char) : Int :=
  match cs with
  | '-' :: rest =>
      let ds := rest.takeWhile Char.isDigit
      if ds.isEmpty then 0 else -(digitsVal ds : Int)
  | '+' :: rest =>
      let ds := rest.takeWhile Char.isDigit
      if ds.isEmpty then 0 else (digitsVal ds : Int)
  | _ =>
      let ds := cs.takeWhile Char.isDigit
      if ds.isEmpty then 0 else (digitsVal ds : Int)

/-- Body of `parseFloat` after the optional sign: `Infinity`, or
`digits [. digits] [e[±]digits]`; NaN when no mantissa digit exists. -/
def jsParseFloatBody (cs : List Char) (neg : Bool) : JNum :=
  if "Infinity".data.isPrefixOf cs then (if neg then JNum.ninf else JNum.inf)
  else
    let intPart := cs.takeWhile Char.isDigit
    let rest1 := cs.dropWhile Char.isDigit
    let fracPart := match rest1 with
      | '.' :: r => r.takeWhile Char.isDigit
      | _ => []
    let rest2 := match rest1 with
      | '.' :: r => r.dropWhile Char.isDigit
      | _ => rest1
    if intPart.isEmpty && fracPart.isEmpty then JNum.nan
    else
      let k := fracPart.length
      let mantissa : JRat :=
        ⟨(digitsVal intPart * 10 ^ k + digitsVal fracPart : Nat), 10 ^ k⟩
      let e : Int := match rest2 with
        | 'e' :: r => jsParseExp r
        | 'E' :: r => jsParseExp r
        | _ => 0
      let v := JRat.mulPow10 mantissa e
      JNum.num (if neg then JRat.neg v else v)

/-- ECMAScript `parseFloat`: skip whitespace, optional sign, then the longest
StrDecimalLiteral prefix; NaN when none exists (e.g. `parseFloat("abc")` and
`parseFloat("--")` are NaN). Exact rational value; IEEE rounding unmodelled. -/
def jsParseFloat (cs : List Char) : JNum :=
  let cs := cs.dropWhile isWS
  match cs with
  | '-' :: rest => jsParseFloatBody rest true
  | '+' :: rest => jsParseFloatBody rest false
  | _ => jsParseFloatBody cs false

/-- JavaScript `String.prototype.trim` (over the modelled whitespace set). -/
def jsTrim (cs : List Char) : List Char :=
  ((cs.dropWhile isWS).reverse.dropWhile isWS).reverse

/-- Case-insensitive suffix test (`/.../i` regex anchored at the end). -/
def endsWithCI (cs suf : List Char) : Bool :=
  List.isSuffixOf suf (cs.map Char.toLower)

/-- `instanceName.replace(/\.(vrp|txt|log|html)$/i, '')` from
`parseGenericInstanceName` (`commonParserUtils.ts` line 10). -/
def stripExtension (cs : List Char) : List Char :=
  if endsWithCI cs ".html".data then cs.take (cs.length - 5)
  else if endsWithCI cs ".vrp".data || endsWithCI cs ".txt".data
       || endsWithCI cs ".log".data then cs.take (cs.length - 4)
  else cs

/-- JavaScript `s.split('_')` on the character list: always at least one
part; `"".split('_') = [""]`, `"_".split('_') = ["", ""]`. -/
def splitUnd : List Char → List (List Char)
  | [] => [[]]
  | c :: rest =>
    match splitUnd rest with
    | [] => [[c]]
    | s :: ss => if c = '_' then [] :: s :: ss else (c :: s) :: ss

/-- Index of the last `'_'` (JavaScript `lastIndexOf('_')`, with `none` for
the `-1` result). -/
def lastUnderscore : List Char → Option Nat
  | [] => none
  | c :: rest =>
    match lastUnderscore rest with
    | some i => some (i + 1)
    | none => if c = '_' then some 0 else none

/-- `ParsedInstanceNameDetails` (`types/unified.ts`): `problemVariant` is
typed `string | null` in the source but `parseGenericInstanceName` returns a
string in every branch, so it is modelled as `String`. -/
structure ParsedInstanceNameDetails where
  numCustomers : Option Int
  numVehicles : Option Int
  problemVariant : String
  baseInstanceName : String
deriving DecidableEq, Repr, Inhabited

/-- Rendering of an integer inside a JS template string (`${numCustomers}`). -/
def intRender (i : Int) : List Char := (toString i).data

/-- Fallback branches of `parseGenericInstanceName` (lines 27-47): split at
the last underscore when it exists with a non-empty suffix, else the whole
stripped name is the base and the variant is `"default"`. -/
def fallbackParse (cs : List Char) : ParsedInstanceNameDetails :=
  match lastUnderscore cs with
  | some i =>
      if i + 1 < cs.length then
        { numCustomers := none, numVehicles := none,
          problemVariant := String.mk (cs.drop (i + 1)),
          baseInstanceName := String.mk (cs.take i) }
      else
        { numCustomers := none, numVehicles := none,
          problemVariant := "default", baseInstanceName := String.mk cs }
  | none =>
      { numCustomers := none, numVehicles := none,
        problemVariant := "default", baseInstanceName := String.mk cs }

/-- Core of `parseGenericInstanceName` on the extension-stripped name
(`const parts = nameWithoutExtension.split('_')` and the branch on the
first two parts, `commonParserUtils.ts` lines 11-25). -/
def parseInstanceNameCore (cs : List Char) : ParsedInstanceNameDetails :=
  match splitUnd cs with
  | p0 :: p1 :: rest =>
    match jsParseInt p0, jsParseInt p1 with
    | some nc, some nv =>
        { numCustomers := some nc, numVehicles := some nv,
          problemVariant :=
            if rest.isEmpty then "default"
            else String.mk (List.intercalate ['_'] rest),
          baseInstanceName := String.mk (intRender nc ++ '_' :: intRender nv) }
    | _, _ => fallbackParse cs
  | _ => fallbackParse cs

/-- `parseGenericInstanceName` (`commonParserUtils.ts` lines 9-48). -/
def parseGenericInstanceName (instanceName : String) : ParsedInstanceNameDetails :=
  parseInstanceNameCore (stripExtension instanceName.data)

/-- `sourceType: 'leaderboard' | 'log'`. -/
inductive SourceType where
  | leaderboard
  | log
deriving DecidableEq, Repr, Inhabited

/-- `UnifiedDataItem` (`types/unified.ts`), the canonical record. The
`id` field (a fresh `uuidv4()` per item) carries no semantics and is
omitted; `instance` is a Lean keyword, so the field is named `instName`. -/
structure UnifiedDataItem where
  sourceName : String
  entryOwner : String
  instName : String
  numCustomers : Option Int
  numVehicles : Option Int
  problemVariant : String
  baseInstanceName : String
  score : Option JNum
  time : Option JNum
  solutionString : Option String
  isUnsolved : Bool
  sourceType : SourceType
deriving DecidableEq, Repr, Inhabited

/-- `LogEntry` (`types/log.ts`): the decoded shape of one log line. -/
structure LogEntry where
  Instance : String
  Time : String
  Result : String
  Solution : String
deriving DecidableEq, Repr, Inhabited

/-- Per-line body of `parseLogEntries` (`logParser.ts` lines 15-41): the
transformation applied to one successfully decoded line. -/
def mkLogItem (logFilename : String) (e : LogEntry) : UnifiedDataItem :=
  let parsedNameDetails := parseGenericInstanceName e.Instance
  let isUnsolved := e.Result == "--" || e.Time == "--"
  { sourceName := logFilename,
    entryOwner := logFilename,
    instName := e.Instance,
    numCustomers := parsedNameDetails.numCustomers,
    numVehicles := parsedNameDetails.numVehicles,
    problemVariant := parsedNameDetails.problemVariant,
    baseInstanceName := parsedNameDetails.baseInstanceName,
    score := if isUnsolved then none else some (jsParseFloat e.Result.data),
    time := if isUnsolved then none else some (jsParseFloat e.Time.data),
    solutionString := some e.Solution,
    isUnsolved := isUnsolved,
    sourceType := SourceType.log }

/-- `parseLogEntries` (`logParser.ts` lines 7-51), modelled on the
per-line decode results: `none` stands for a line whose `JSON.parse`
throws (the `catch` logs and skips it) or a blank line (skipped by the
`continue`); `some e` is a successfully decoded line. The loop appends
one item per decoded line, in input order, and never aborts. -/
def parseLogEntries (logFilename : String) : List (Option LogEntry) → List UnifiedDataItem
  | [] => []
  | none :: rest => parseLogEntries logFilename rest
  | some e :: rest => mkLogItem logFilename e :: parseLogEntries logFilename rest

/-- Characters matched by the regex class `[\d.]`. -/
def isDigitDot (c : Char) : Bool := c.isDigit || c = '.'

/-- Characters matched by the regex class `[\d.-]`. -/
def isScoreChar (c : Char) : Bool := c.isDigit || c = '.' || c = '-'

/-- One anchored attempt of `--\s*\[([\d.]+)\]` at the head of the list:
`--`, then whitespace, then `[` digits/dots `]`; returns the capture. -/
def bracketAttempt (cs : List Char) : Option (List Char) :=
  match cs with
  | '-' :: '-' :: r =>
      match r.dropWhile isWS with
      | '[' :: r3 =>
          let ds := r3.takeWhile isDigitDot
          if !ds.isEmpty && (r3.dropWhile isDigitDot).head? = some ']' then some ds
          else none
      | _ => none
  | _ => none

/-- Unanchored search of the regex `--\s*\[([\d.]+)\]` (the `timeMatchInUnsolved`
regex, `part_005` line 89): leftmost match wins. -/
def searchBracketTime : List Char → Option (List Char)
  | [] => none
  | c :: rest =>
      match bracketAttempt (c :: rest) with
      | some ds => some ds
      | none => searchBracketTime rest

/-- The anchored regex `/^([\d.-]+)(?:\s*\[([\d.]+)\])?$/` (the
`scoreTimeMatch` regex, `part_005` line 96). The two capture groups are
returned on success. The character classes `[\d.-]`, `\s` and `[\d.]` are
pairwise disjoint from the delimiters that follow them, so greedy matching
without backtracking is exact. -/
def matchScoreTime (cs : List Char) : Option (List Char × Option (List Char)) :=
  let g1 := cs.takeWhile isScoreChar
  let rest := cs.dropWhile isScoreChar
  if g1.isEmpty then none
  else if rest.isEmpty then some (g1, none)
  else
    match rest.dropWhile isWS with
    | '[' :: r3 =>
        let ds := r3.takeWhile isDigitDot
        match r3.dropWhile isDigitDot with
        | [']'] => if ds.isEmpty then none else some (g1, some ds)
        | _ => none
    | _ => none

/-- Result of parsing one leaderboard cell's text. -/
structure CellParse where
  score : Option JNum
  time : Option JNum
  isUnsolved : Bool
deriving DecidableEq, Repr, Inhabited

/-- Cell-text parsing of the leaderboard parser (`part_005` lines 80-109),
applied to the already-trimmed cell text: the unsolved branch fires on
exactly `"--"`, the empty string, or a `"-- ["` prefix (note: a prefix
test, not the full `/^--\s*\[([\d.]+)\]$/` shape); otherwise the anchored
score/time regex decides, with an unrecognised cell defensively unsolved. -/
def parseLeaderboardCell (cellContentStr : List Char) : CellParse :=
  if cellContentStr = "--".data || cellContentStr = []
     || "-- [".data.isPrefixOf cellContentStr then
    { score := none,
      time := match searchBracketTime cellContentStr with
        | some ds => some (jsParseFloat ds)
        | none => none,
      isUnsolved := true }
  else
    match matchScoreTime cellContentStr with
    | some (g1, g2) =>
        { score := some (jsParseFloat g1),
          time := match g2 with
            | some ds => some (jsParseFloat ds)
            | none => none,
          isUnsolved := false }
    | none => { score := none, time := none, isUnsolved := true }

/-- Record assembly for one (entry, problem-instance column) pair of the
leaderboard parser (`part_005` lines 74-126), given the cell's raw text. -/
def mkLBItem (sourceFileName participantName problemInstance cellRaw : String) :
    UnifiedDataItem :=
  let parsedNameDetails := parseGenericInstanceName problemInstance
  let cp := parseLeaderboardCell (jsTrim cellRaw.data)
  { sourceName := sourceFileName,
    entryOwner := participantName,
    instName := problemInstance,
    numCustomers := parsedNameDetails.numCustomers,
    numVehicles := parsedNameDetails.numVehicles,
    problemVariant := parsedNameDetails.problemVariant,
    baseInstanceName := parsedNameDetails.baseInstanceName,
    score := cp.score,
    time := cp.time,
    solutionString := none,
    isUnsolved := cp.isUnsolved,
    sourceType := SourceType.leaderboard }

/-- One row of the decoded leaderboard payload: `name` is absent when the
JSON row has none; `cells` maps a column name to the cell value, where a
missing key (undefined) and an explicit `null` are both `none`, and a
present value is its `String(...)` rendering. -/
structure LBEntry where
  name : Option String
  cells : List (String × Option String)
deriving DecidableEq, Repr, Inhabited

/-- The decoded `data-react-props` payload: column names and entry rows
(a column is modelled by its `name`, the only field the parser reads). -/
structure LeaderboardPayload where
  columns : List String
  entries : List LBEntry
deriving DecidableEq, Repr, Inhabited

/-- The exclusion set of `part_005` line 65. -/
def knownNonProblemColumns : List String :=
  ["Total time", "Rank", "Submission Name", "Avg Time", "Submissions",
   "Problems Solved", "name", "assignment_submission_id"]

/-- Association-list lookup (first matching key). -/
def alistFind {κ β : Type} [BEq κ] : List (κ × β) → κ → Option β
  | [], _ => none
  | (k, v) :: rest, j => if k == j then some v else alistFind rest j

/-- `entry[problemInstance]` access: `none` for undefined or null. -/
def cellLookup (cells : List (String × Option String)) (col : String) :
    Option String :=
  match alistFind cells col with
  | some (some s) => some s
  | _ => none

/-- `entry.name || "Unknown Participant"` (`part_005` line 71): JS `||`
treats an absent name and the empty string alike. -/
def participantNameOf (name : Option String) : String :=
  match name with
  | some s => if s = "" then "Unknown Participant" else s
  | none => "Unknown Participant"

/-- `parseLeaderboardHtmlToUnifiedData` (`part_005` lines 29-131), modelled
from the decoded payload onward: the DOM query, attribute read and
`JSON.parse` (lines 34-61) are environment I/O whose failures each return
the empty list before this point. Column names are filtered by truthiness
and the exclusion set, then one record is emitted per (entry, column) pair
whose cell is present. -/
def parseLeaderboardHtmlToUnifiedData (sourceFileName : String)
    (payload : LeaderboardPayload) : List UnifiedDataItem :=
  let problemInstanceColumns := payload.columns.filter
    (fun n => n != "" && !(knownNonProblemColumns.contains n))
  payload.entries.flatMap (fun entry =>
    let participantName := participantNameOf entry.name
    problemInstanceColumns.filterMap (fun problemInstance =>
      match cellLookup entry.cells problemInstance with
      | none => none
      | some cell =>
          some (mkLBItem sourceFileName participantName problemInstance cell)))

/-- Insert-or-update for an insertion-ordered association list, the shape of
the JavaScript `if (!m.has(k)) m.set(k, init); f(m.get(k))` idiom: a new key
is appended at the end (JS `Map` iteration order), an existing entry is
updated in place. -/
def upsert {κ β : Type} [BEq κ] (k : κ) (init : β) (f : β → β) :
    List (κ × β) → List (κ × β)
  | [] => [(k, f init)]
  | (k', v) :: rest =>
      if k' == k then (k', f v) :: rest else (k', v) :: upsert k init f rest

/-- JS `Map.set`: replace in place, or append a new key at the end. -/
def alistPut {κ β : Type} [BEq κ] (k : κ) (v : β) :
    List (κ × β) → List (κ × β)
  | [] => [(k, v)]
  | (k', v') :: rest =>
      if k' == k then (k', v) :: rest else (k', v') :: alistPut k v rest

/-- Per-size accumulator entry of `bySize` (`part_006` line 10). -/
structure SizeStats where
  score : JNum
  count : Nat
deriving DecidableEq, Repr, Inhabited

/-- `OwnerMetrics` (`part_006` lines 4-11). -/
structure OwnerMetrics where
  totalScore : JNum
  avgScore : JNum
  solvedCount : Nat
  totalProblems : Nat
  bestSolutions : Nat
  bySize : List (Int × SizeStats)
deriving DecidableEq, Repr, Inhabited

/-- The fresh metrics object installed for a newly seen owner
(`part_006` lines 34-41). -/
def freshMetrics : OwnerMetrics :=
  { totalScore := jn 0, avgScore := jn 0, solvedCount := 0,
    totalProblems := 0, bestSolutions := 0, bySize := [] }

/-- Net first-pass effect of one record on its owner's metrics
(`part_006` lines 45-66): count the problem always; for a solved record
with a non-null score also accumulate score, solved count and `bySize`. -/
def updateOwner (item : UnifiedDataItem) (m : OwnerMetrics) : OwnerMetrics :=
  let m := { m with totalProblems := m.totalProblems + 1 }
  match item.isUnsolved, item.score with
  | false, some score =>
      { m with
        totalScore := JNum.jadd m.totalScore score,
        solvedCount := m.solvedCount + 1,
        bySize := match item.numCustomers with
          | some size =>
              upsert size { score := jn 0, count := 0 }
                (fun st => { score := JNum.jadd st.score score,
                             count := st.count + 1 }) m.bySize
          | none => m.bySize }
  | _, _ => m

/-- First-pass effect of one record on the `instanceBestScores` running
minimum map (`part_006` lines 53-55): for a solved record, install the
score for a new instance or lower an existing entry (JS `<`, so a NaN
score never displaces an entry but does install itself first). -/
def bestUpdate (item : UnifiedDataItem) (best : List (String × JNum)) :
    List (String × JNum) :=
  match item.isUnsolved, item.score with
  | false, some score =>
      match alistFind best item.instName with
      | none => best ++ [(item.instName, score)]
      | some b => if JNum.jlt score b then alistPut item.instName score best else best
  | _, _ => best

/-- The `instanceBestScores` map after the first pass of
`calculateUnifiedMetrics` (`part_006` lines 25-68). The source fills the
per-owner map and this map in one loop; the two updates read disjoint
state, so the loop is modelled as two folds over the same record list. -/
def instanceBestScores (data : List UnifiedDataItem) : List (String × JNum) :=
  data.foldl (fun best item => bestUpdate item best) []

/-- The per-owner map after the first pass of `calculateUnifiedMetrics`
(`part_006` lines 27-68). -/
def ownerPerformancePass1 (data : List UnifiedDataItem) :
    List (String × OwnerMetrics) :=
  data.foldl
    (fun m item => upsert item.entryOwner freshMetrics (updateOwner item) m) []

/-- The increment condition of the second-pass `bestSolutions` loop
(`part_006` lines 81-84): a record of this owner, solved with a non-null
score, whose score is `===`-equal to the instance's entry in
`instanceBestScores`. -/
def isBestRecord (best : List (String × JNum)) (owner : String)
    (item : UnifiedDataItem) : Bool :=
  item.entryOwner == owner && !item.isUnsolved &&
    match item.score, alistFind best item.instName with
    | some s, some b => JNum.jeq s b
    | _, _ => false

/-- The second-pass inner loop (`part_006` lines 80-87): walk the whole
record list and count the increments for one owner. -/
def bestSolCount (data : List UnifiedDataItem) (best : List (String × JNum))
    (owner : String) : Nat :=
  data.foldl (fun c item => if isBestRecord best owner item then c + 1 else c) 0

/-- Second-pass finalization for one owner (`part_006` lines 71-88):
average (with the `Infinity` sentinel for zero solved) and the
`bestSolutions` count. -/
def finalizeOwner (data : List UnifiedDataItem) (owner : String)
    (m : OwnerMetrics) : OwnerMetrics :=
  { m with
    avgScore :=
      if 0 < m.solvedCount then JNum.jdiv m.totalScore (jn m.solvedCount)
      else JNum.inf,
    bestSolutions :=
      m.bestSolutions + bestSolCount data (instanceBestScores data) owner }

/-- `calculateUnifiedMetrics` (`part_006` lines 23-91). -/
def calculateUnifiedMetrics (data : List UnifiedDataItem) :
    List (String × OwnerMetrics) :=
  (ownerPerformancePass1 data).map
    (fun p => (p.1, finalizeOwner data p.1 p.2))

/-- Record Store append (`page.tsx` lines 90-94,
`setMasterData(prev => [...prev, ...newData])`). -/
def appendRecords (store newData : List UnifiedDataItem) :
    List UnifiedDataItem :=
  store ++ newData

/-- Record Store removal by source (`page.tsx` line 100,
`prevData.filter(item => item.sourceName !== sourceNameToClear)`). -/
def removeBySource (store : List UnifiedDataItem) (sourceNameToClear : String) :
    List UnifiedDataItem :=
  store.filter (fun item => item.sourceName != sourceNameToClear)

/-- `Number.prototype.toFixed(2)` for the observation strings: round to the
nearest hundredth, the larger value on ties. (JavaScript's `"-0.00"` for
tiny negative values is rendered `"0.00"`; no claim depends on the text.) -/
def fmtFixed2 : JNum → String
  | JNum.nan => "NaN"
  | JNum.inf => "Infinity"
  | JNum.ninf => "-Infinity"
  | JNum.num q =>
      let c : Int := Int.fdiv (200 * q.n + (q.d : Int)) (2 * (q.d : Int))
      let sign := if c < 0 then "-" else ""
      let m := c.natAbs
      sign ++ toString (m / 100) ++ "." ++
        (if m % 100 < 10 then "0" else "") ++ toString (m % 100)

/-- An outlier observation (`findProblemOutliers` return shape). -/
structure Observation where
  instName : String
  observation : String
deriving DecidableEq, Repr, Inhabited

/-- The per-instance grouping of `findProblemOutliers` (`part_000` lines
165-173): instance → (owner → last record of that owner on the instance). -/
def groupByInstanceOwner (unifiedData : List UnifiedDataItem) :
    List (String × List (String × UnifiedDataItem)) :=
  unifiedData.foldl
    (fun m item =>
      upsert item.instName [] (fun inner => alistPut item.entryOwner item inner) m)
    []

/-- Best/worst accumulation of `findProblemOutliers` (`part_000` lines
203-217): running minimum and maximum with their owners, from
`(Infinity, "")` and `(-Infinity, "")`. -/
def bestWorstFold (solvedScores : List (String × JNum)) :
    JNum × String × JNum × String :=
  solvedScores.foldl
    (fun acc p =>
      let (bestResult, bestOwner, worstResult, worstOwner) := acc
      let (bestResult, bestOwner) :=
        if JNum.jlt p.2 bestResult then (p.2, p.1) else (bestResult, bestOwner)
      let (worstResult, worstOwner) :=
        if JNum.jgt p.2 worstResult then (p.2, p.1) else (worstResult, worstOwner)
      (bestResult, bestOwner, worstResult, worstOwner))
    (JNum.inf, "", JNum.ninf, "")

/-- The body of the per-instance loop of `findProblemOutliers` (`part_000`
lines 177-229): at most one observation per instance — the mixed
solved/unsolved observation takes priority (the `continue`), else the
score-gap observation when all attempting owners solved. -/
def outlierForInstance (instName : String)
    (ownerMap : List (String × UnifiedDataItem)) : Option Observation :=
  if ownerMap.length < 2 then none
  else
    let solvedScores : List (String × JNum) :=
      ownerMap.filterMap (fun p =>
        match p.2.isUnsolved, p.2.score with
        | false, some s => some (p.1, s)
        | _, _ => none)
    let unsolvedOwners : List String :=
      ownerMap.filterMap (fun p =>
        match p.2.isUnsolved, p.2.score with
        | false, some _ => none
        | _, _ => some p.1)
    if 0 < solvedScores.length && 0 < unsolvedOwners.length then
      some { instName := instName,
             observation := "Solved by: " ++
               String.intercalate ", " (solvedScores.map (fun p => p.1)) ++
               ". Unsolved by: " ++ String.intercalate ", " unsolvedOwners ++ "." }
    else if solvedScores.length == ownerMap.length && 1 < solvedScores.length then
      let (bestResult, bestOwner, worstResult, worstOwner) :=
        bestWorstFold solvedScores
      let gap :=
        if JNum.jgt bestResult (jn 0) then
          JNum.jdiv (JNum.jsub worstResult bestResult) bestResult
        else if JNum.jgt worstResult (jn 0) then JNum.inf else jn 0
      if JNum.jgt gap (JNum.num ⟨2, 10⟩) ||
         (JNum.jeq bestResult (jn 0) && JNum.jgt worstResult (jn 10)) then
        some { instName := instName,
               observation := bestOwner ++ " (Score: " ++ fmtFixed2 bestResult ++
                 ") performed significantly better than " ++ worstOwner ++
                 " (Score: " ++ fmtFixed2 worstResult ++ ")." }
      else none
    else none

set_option linter.unusedVariables false in
/-- `findProblemOutliers` (`part_000` lines 164-234). The `owners`
parameter appears in the source signature but is never read by the body;
it is kept here for fidelity. The result is truncated to the first five
observations in grouping (insertion) order. -/
def findProblemOutliers (unifiedData : List UnifiedDataItem)
    (owners : List String) : List Observation :=
  ((groupByInstanceOwner unifiedData).filterMap
    (fun p => outlierForInstance p.1 p.2)).take 5

/-- Test-fixture record builder for concrete witnesses: a log-typed record
with the given source, owner, instance, score and unsolved flag. -/
def mkSample (src owner instN : String) (score : Option JNum)
    (isUnsolved : Bool) : UnifiedDataItem :=
  { sourceName := src, entryOwner := owner, instName := instN,
    numCustomers := none, numVehicles := none, problemVariant := "default",
    baseInstanceName := instN, score := score, time := none,
    solutionString := none, isUnsolved := isUnsolved,
    sourceType := SourceType.log }

/-! ### Helper lemmas -/

theorem alistFind_upsert {κ β : Type} [BEq κ] [LawfulBEq κ]
    (k : κ) (init : β) (f : β → β) (l : List (κ × β)) (j : κ) :
    alistFind (upsert k init f l) j =
      if k == j then some (f ((alistFind l j).getD init)) else alistFind l j := by
  induction l with
  | nil =>
      by_cases h : k = j <;> simp [upsert, alistFind, h]
  | cons hd tl ih =>
      obtain ⟨k', v⟩ := hd
      by_cases hk : k' = k
      · subst hk
        by_cases hj : k' = j
        · subst hj; simp [upsert, alistFind]
        · simp [upsert, alistFind, hj]
      · by_cases hj : k' = j
        · subst hj
          have hkj : ¬k = k' := fun h => hk h.symm
          simp [upsert, alistFind, hk, hkj]
        · simp [upsert, alistFind, hk, hj, ih]

theorem alistFind_foldl_upsert {κ β ι : Type} [BEq κ] [LawfulBEq κ]
    (key : ι → κ) (init : β) (upd : ι → β → β) (o : κ) :
    ∀ (data : List ι) (acc : List (κ × β)),
    alistFind (data.foldl (fun m it => upsert (key it) init (upd it) m) acc) o
      = (data.filter (fun it => key it == o)).foldl
          (fun cur it => some (upd it (cur.getD init))) (alistFind acc o) := by
  intro data
  induction data with
  | nil => intro acc; simp
  | cons hd tl ih =>
      intro acc
      by_cases h : key hd = o
      · simp only [List.foldl_cons, List.filter_cons, h, beq_self_eq_true, if_true,
          ih, alistFind_upsert, List.foldl_cons]
      · have hb : (key hd == o) = false := beq_eq_false_iff_ne.mpr h
        simp only [List.foldl_cons, List.filter_cons, hb, Bool.false_eq_true,
          if_false, ih, alistFind_upsert]

theorem foldl_opt_some {β ι : Type} (upd : ι → β → β) (init : β) :
    ∀ (items : List ι) (m : β),
    items.foldl (fun cur it => some (upd it (cur.getD init))) (some m)
      = some (items.foldl (fun x it => upd it x) m) := by
  intro items
  induction items with
  | nil => intro m; rfl
  | cons hd tl ih => intro m; simpa using ih (upd hd m)

theorem foldl_count {ι : Type} (p : ι → Bool) :
    ∀ (l : List ι) (k : Nat),
    l.foldl (fun c it => if p it then c + 1 else c) k = k + l.countP p := by
  intro l
  induction l with
  | nil => intro k; simp
  | cons hd tl ih =>
      intro k
      by_cases h : p hd
      · simp [List.countP_cons, h, ih]; omega
      · simp [List.countP_cons, h, ih]

theorem alistFind_map_val {κ β γ : Type} [BEq κ] [LawfulBEq κ]
    (F : κ → β → γ) (o : κ) :
    ∀ l : List (κ × β),
    alistFind (l.map (fun p => (p.1, F p.1 p.2))) o = (alistFind l o).map (F o) := by
  intro l
  induction l with
  | nil => rfl
  | cons hd tl ih =>
      obtain ⟨k, v⟩ := hd
      by_cases h : k = o
      · subst h; simp [alistFind]
      · simp [alistFind, h, ih]

theorem lastUnderscore_get (cs : List Char) (i : Nat)
    (h : lastUnderscore cs = some i) : cs.get? i = some '_' := by
  induction cs generalizing i with
  | nil => simp [lastUnderscore] at h
  | cons c rest ih =>
      unfold lastUnderscore at h
      cases hr : lastUnderscore rest with
      | some j =>
          rw [hr] at h
          injection h with h
          subst h
          simpa using ih j hr
      | none =>
          rw [hr] at h
          by_cases hc : c = '_'
          · simp [hc] at h
            subst h
            simp [hc]
          · simp [hc] at h

theorem find_pass1 (data : List UnifiedDataItem) (o : String) :
    alistFind (ownerPerformancePass1 data) o
      = match data.filter (fun it => it.entryOwner == o) with
        | [] => none
        | l => some (l.foldl (fun m x => updateOwner x m) freshMetrics) := by
  unfold ownerPerformancePass1
  rw [alistFind_foldl_upsert]
  cases hf : data.filter (fun it => it.entryOwner == o) with
  | nil => simp [alistFind]
  | cons hd tl =>
      simp only [alistFind, List.foldl_cons, Option.getD_none, foldl_opt_some]

theorem calc_find (data : List UnifiedDataItem) (o : String) :
    alistFind (calculateUnifiedMetrics data) o
      = (alistFind (ownerPerformancePass1 data) o).map (finalizeOwner data o) := by
  unfold calculateUnifiedMetrics
  exact alistFind_map_val (finalizeOwner data) o (ownerPerformancePass1 data)

theorem updateOwner_solvedCount (x : UnifiedDataItem) (m : OwnerMetrics) :
    (updateOwner x m).solvedCount
      = m.solvedCount + (if !x.isUnsolved && x.score.isSome then 1 else 0) := by
  unfold updateOwner
  cases hu : x.isUnsolved <;> cases hs : x.score <;> simp [hu, hs]

theorem updateOwner_bestSolutions (x : UnifiedDataItem) (m : OwnerMetrics) :
    (updateOwner x m).bestSolutions = m.bestSolutions := by
  unfold updateOwner
  cases hu : x.isUnsolved <;> cases hs : x.score <;> simp [hu, hs]

theorem foldl_updateOwner_solvedCount (l : List UnifiedDataItem) :
    ∀ m : OwnerMetrics,
    (l.foldl (fun m x => updateOwner x m) m).solvedCount
      = m.solvedCount + l.countP (fun it => !it.isUnsolved && it.score.isSome) := by
  induction l with
  | nil => intro m; simp
  | cons hd tl ih =>
      intro m
      simp only [List.foldl_cons, ih, updateOwner_solvedCount, List.countP_cons]
      omega

theorem foldl_updateOwner_bestSolutions (l : List UnifiedDataItem) :
    ∀ m : OwnerMetrics,
    (l.foldl (fun m x => updateOwner x m) m).bestSolutions = m.bestSolutions := by
  induction l with
  | nil => intro m; rfl
  | cons hd tl ih =>
      intro m
      simp only [List.foldl_cons, ih, updateOwner_bestSolutions]

theorem find_calc_split (data : List UnifiedDataItem) (o : String)
    (m : OwnerMetrics)
    (h : alistFind (calculateUnifiedMetrics data) o = some m) :
    ∃ m1, alistFind (ownerPerformancePass1 data) o = some m1
        ∧ m = finalizeOwner data o m1 := by
  rw [calc_find] at h
  cases hf : alistFind (ownerPerformancePass1 data) o with
  | none => rw [hf] at h; simp at h
  | some m1 =>
      rw [hf] at h
      injection h with h
      exact ⟨m1, rfl, h.symm⟩

theorem pass1_fields (data : List UnifiedDataItem) (o : String) (m1 : OwnerMetrics)
    (h : alistFind (ownerPerformancePass1 data) o = some m1) :
    m1.bestSolutions = 0
    ∧ m1.solvedCount = (data.filter (fun it => it.entryOwner == o)).countP
        (fun it => !it.isUnsolved && it.score.isSome) := by
  rw [find_pass1] at h
  cases hf : data.filter (fun it => it.entryOwner == o) with
  | nil => rw [hf] at h; simp at h
  | cons hd tl =>
      rw [hf] at h
      injection h with h
      subst h
      constructor
      · rw [foldl_updateOwner_bestSolutions]
        rfl
      · rw [foldl_updateOwner_solvedCount, ← hf]
        simp [freshMetrics]

theorem bestSolutions_char (data : List UnifiedDataItem) (o : String)
    (m : OwnerMetrics)
    (h : alistFind (calculateUnifiedMetrics data) o = some m) :
    m.bestSolutions = data.countP (isBestRecord (instanceBestScores data) o) := by
  obtain ⟨m1, hm1, rfl⟩ := find_calc_split data o m h
  have hz := (pass1_fields data o m1 hm1).1
  unfold finalizeOwner bestSolCount
  simp only [hz, foldl_count, Nat.zero_add]

theorem find_calc_of_mem (data : List UnifiedDataItem) (o : String)
    (it : UnifiedDataItem) (hmem : it ∈ data) (ho : it.entryOwner = o) :
    ∃ m, alistFind (calculateUnifiedMetrics data) o = some m := by
  rw [calc_find]
  rw [find_pass1]
  cases hf : data.filter (fun x => x.entryOwner == o) with
  | nil =>
      exfalso
      have : it ∈ data.filter (fun x => x.entryOwner == o) :=
        List.mem_filter.mpr ⟨hmem, by simp [ho]⟩
      rw [hf] at this
      simp at this
  | cons hd tl => exact ⟨_, rfl⟩

theorem bestSolutions_ge_one (data : List UnifiedDataItem) (o : String)
    (it : UnifiedDataItem) (hmem : it ∈ data) (ho : it.entryOwner = o)
    (hbr : isBestRecord (instanceBestScores data) o it = true) :
    ∃ m, alistFind (calculateUnifiedMetrics data) o = some m
       ∧ 1 ≤ m.bestSolutions := by
  obtain ⟨m, hm⟩ := find_calc_of_mem data o it hmem ho
  refine ⟨m, hm, ?_⟩
  rw [bestSolutions_char data o m hm]
  have : 0 < data.countP (isBestRecord (instanceBestScores data) o) :=
    List.countP_pos_iff.mpr ⟨it, hmem, hbr⟩
  omega

theorem parseLogEntries_append (fn : String) (l1 l2 : List (Option LogEntry)) :
    parseLogEntries fn (l1 ++ l2)
      = parseLogEntries fn l1 ++ parseLogEntries fn l2 := by
  induction l1 with
  | nil => rfl
  | cons hd tl ih =>
      cases hd with
      | none => simpa [parseLogEntries] using ih
      | some e => simpa [parseLogEntries] using ih

theorem parseLogEntries_replicate_none (fn : String) (k : Nat) :
    parseLogEntries fn (List.replicate k none) = [] := by
  induction k with
  | zero => rfl
  | succ n ih => simpa [List.replicate, parseLogEntries] using ih

theorem parseLeaderboardCell_score_iff (cs : List Char) :
    ((parseLeaderboardCell cs).score = none
      ↔ (parseLeaderboardCell cs).isUnsolved = true) := by
  unfold parseLeaderboardCell
  split
  · simp
  · split
    · rename_i g1 g2 heq
      simp
    · simp

theorem mkLogItem_score_iff (fn : String) (e : LogEntry) :
    ((mkLogItem fn e).score = none ↔ (mkLogItem fn e).isUnsolved = true) := by
  unfold mkLogItem
  cases h : (e.Result == "--" || e.Time == "--") <;> simp [h]

theorem mkLBItem_score_iff (fn pname col cell : String) :
    ((mkLBItem fn pname col cell).score = none
      ↔ (mkLBItem fn pname col cell).isUnsolved = true) := by
  unfold mkLBItem
  simpa using parseLeaderboardCell_score_iff (jsTrim cell.data)

theorem fallbackParse_sizes (cs : List Char) :
    (fallbackParse cs).numCustomers = none
      ∧ (fallbackParse cs).numVehicles = none := by
  unfold fallbackParse
  split
  · split <;> simp
  · simp

/-! ### Claim theorems -/

/-- C8: the Log Format Parser never aborts on a malformed line — a line
that fails to decode is dropped while well-formed lines before and after
it appear in the result in input order, and an input with zero valid
lines yields the empty list rather than an error. -/
theorem c8_log_parser_error_recovery (fn : String)
    (pre post : List (Option LogEntry)) (e : LogEntry) (k : Nat) :
    parseLogEntries fn (pre ++ none :: post)
      = parseLogEntries fn pre ++ parseLogEntries fn post
    ∧ parseLogEntries fn (pre ++ some e :: post)
      = parseLogEntries fn pre ++ mkLogItem fn e :: parseLogEntries fn post
    ∧ parseLogEntries fn (List.replicate k none) = [] := by
  refine ⟨?_, ?_, parseLogEntries_replicate_none fn k⟩
  · rw [parseLogEntries_append]; rfl
  · rw [parseLogEntries_append]; rfl

/-- C9: appending a batch of records that all carry a source name absent
from the store, then removing by that source name, restores the store
exactly — no residue of the batch, other sources untouched and in order. -/
theorem c9_store_append_remove_roundtrip
    (store newData : List UnifiedDataItem) (src : String)
    (hstore : ∀ it ∈ store, it.sourceName ≠ src)
    (hnew : ∀ it ∈ newData, it.sourceName = src) :
    removeBySource (appendRecords store newData) src = store := by
  unfold removeBySource appendRecords
  rw [List.filter_append]
  have h1 : store.filter (fun item => item.sourceName != src) = store := by
    apply List.filter_eq_self.mpr
    intro it hit
    simpa using hstore it hit
  have h2 : newData.filter (fun item => item.sourceName != src) = [] := by
    apply List.filter_eq_nil_iff.mpr
    intro it hit
    simpa using hnew it hit
  rw [h1, h2, List.append_nil]

/-- C9 witness: a concrete store with one `"b.log"` record survives an
append/remove round trip of two `"a.log"` records. -/
theorem c9_store_append_remove_roundtrip_witness :
    removeBySource
      (appendRecords
        [{ sourceName := "b.log", entryOwner := "b.log", instName := "i",
           numCustomers := none, numVehicles := none, problemVariant := "default",
           baseInstanceName := "i", score := some (jn 7), time := none,
           solutionString := none, isUnsolved := false, sourceType := SourceType.log }]
        [{ sourceName := "a.log", entryOwner := "a.log", instName := "i",
           numCustomers := none, numVehicles := none, problemVariant := "default",
           baseInstanceName := "i", score := some (jn 5), time := none,
           solutionString := none, isUnsolved := false, sourceType := SourceType.log },
         { sourceName := "a.log", entryOwner := "a.log", instName := "j",
           numCustomers := none, numVehicles := none, problemVariant := "default",
           baseInstanceName := "j", score := none, time := none,
           solutionString := none, isUnsolved := true, sourceType := SourceType.log }])
      "a.log"
    = [{ sourceName := "b.log", entryOwner := "b.log", instName := "i",
         numCustomers := none, numVehicles := none, problemVariant := "default",
         baseInstanceName := "i", score := some (jn 7), time := none,
         solutionString := none, isUnsolved := false, sourceType := SourceType.log }] :=
  c9_store_append_remove_roundtrip _ _ "a.log" (by decide) (by decide)

/-- C10: the Observation list of the Outlier/Insight Analyzer depends only
on the records argument — the `owners` parameter never influences the
result (it is dead in the body of `findProblemOutliers`). -/
theorem c10_outliers_ignore_owners (unifiedData : List UnifiedDataItem)
    (o1 o2 : List String) :
    findProblemOutliers unifiedData o1 = findProblemOutliers unifiedData o2 := rfl

theorem string_mk_ne_empty (l : List Char) (h : l ≠ []) : String.mk l ≠ "" := by
  intro hc
  apply h
  have h2 : (String.mk l).data = ("" : String).data := by rw [hc]
  simpa using h2

theorem lastUnderscore_none_not_mem (t : List Char)
    (h : lastUnderscore t = none) : '_' ∉ t := by
  induction t with
  | nil => simp
  | cons c rest ih =>
      unfold lastUnderscore at h
      cases hr : lastUnderscore rest with
      | some j => rw [hr] at h; exact Option.noConfusion h
      | none =>
          rw [hr] at h
          by_cases hc : c = '_'
          · simp [hc] at h
          · simp only [List.mem_cons, not_or]
            exact ⟨fun h => hc h.symm, ih hr⟩

theorem splitUnd_no_underscore (t : List Char) (h : '_' ∉ t) :
    splitUnd t = [t] := by
  induction t with
  | nil => rfl
  | cons c rest ih =>
      have hc : c ≠ '_' := fun hc => h (hc ▸ List.mem_cons_self c rest)
      have hr : '_' ∉ rest := fun hm => h (List.mem_cons_of_mem c hm)
      have hcc : ¬(c = '_') := hc
      simp [splitUnd, ih hr, hcc]

theorem lastUnderscore_some_zero (cs : List Char)
    (h : lastUnderscore cs = some 0) :
    ∃ t, cs = '_' :: t ∧ lastUnderscore t = none := by
  cases cs with
  | nil => simp [lastUnderscore] at h
  | cons c rest =>
      unfold lastUnderscore at h
      cases hr : lastUnderscore rest with
      | some j => rw [hr] at h; simp at h
      | none =>
          rw [hr] at h
          by_cases hc : c = '_'
          · exact ⟨rest, by rw [hc], hr⟩
          · simp [hc] at h

theorem fallbackParse_base_ne_empty (cs : List Char) (h1 : cs ≠ [])
    (h2 : ¬(lastUnderscore cs = some 0 ∧ 1 < cs.length)) :
    (fallbackParse cs).baseInstanceName ≠ "" := by
  cases cs with
  | nil => exact absurd rfl h1
  | cons c t =>
      unfold fallbackParse
      cases hl : lastUnderscore (c :: t) with
      | none => simpa using string_mk_ne_empty (c :: t) (by simp)
      | some i =>
          cases i with
          | zero =>
              have hnlt : ¬(1 < t.length + 1) := fun hlt =>
                h2 ⟨hl, by simpa using hlt⟩
              simpa [hnlt] using string_mk_ne_empty (c :: t) (by simp)
          | succ n =>
              by_cases hi : n + 1 < t.length
              · simpa [hi] using string_mk_ne_empty (c :: List.take n t) (by simp)
              · simpa [hi] using string_mk_ne_empty (c :: t) (by simp)

theorem parseInstanceNameCore_base_ne_empty (cs : List Char) (h1 : cs ≠ [])
    (h2 : ¬(lastUnderscore cs = some 0 ∧ 1 < cs.length)) :
    (parseInstanceNameCore cs).baseInstanceName ≠ "" := by
  unfold parseInstanceNameCore
  cases hp : splitUnd cs with
  | nil => exact fallbackParse_base_ne_empty cs h1 h2
  | cons p0 tl =>
      cases tl with
      | nil => exact fallbackParse_base_ne_empty cs h1 h2
      | cons p1 rest =>
          cases hq0 : jsParseInt p0 with
          | none =>
              simp only [hq0]
              exact fallbackParse_base_ne_empty cs h1 h2
          | some n0 =>
              cases hq1 : jsParseInt p1 with
              | none =>
                  simp only [hq0, hq1]
                  exact fallbackParse_base_ne_empty cs h1 h2
              | some n1 =>
                  simp only [hq0, hq1]
                  simpa using
                    string_mk_ne_empty (intRender n0 ++ '_' :: intRender n1) (by simp)

theorem parseInstanceNameCore_base_empty_of (cs : List Char)
    (h : cs = [] ∨ (lastUnderscore cs = some 0 ∧ 1 < cs.length)) :
    (parseInstanceNameCore cs).baseInstanceName = "" := by
  rcases h with rfl | ⟨hl, hlen⟩
  · decide
  · obtain ⟨t, rfl, hnone⟩ := lastUnderscore_some_zero cs hl
    have hsplit : splitUnd ('_' :: t) = [[], t] := by
      have hst := splitUnd_no_underscore t (lastUnderscore_none_not_mem t hnone)
      simp [splitUnd, hst]
    unfold parseInstanceNameCore
    rw [hsplit]
    have hpi : jsParseInt ([] : List Char) = none := by decide
    simp only [hpi]
    unfold fallbackParse
    rw [hl]
    have hlt : 0 < t.length := by simpa using hlen
    simp [hlt]

/-- C3 counterexample: the input `"_x"` reaches the last-underscore branch
with the underscore at position 0, so `baseInstanceName` is the empty
string, contradicting the claim that it is always non-empty. -/
theorem c3_counterexample :
    (parseGenericInstanceName "_x").baseInstanceName = "" := by decide

/-- C3 (amended): `baseInstanceName` is empty exactly when the name minus
extension is empty, or its last underscore sits at position 0 with a
non-empty suffix after it (e.g. `"_x"`, where the substring before the
last underscore is empty); in every other case it is non-empty (e.g.
`"_a_b"` yields `"_a"`, `"__x"` yields `"_"`, `"_"` yields `"_"`). -/
theorem c3_base_empty_characterization (name : String) :
    (parseGenericInstanceName name).baseInstanceName = ""
      ↔ (stripExtension name.data = []
        ∨ (lastUnderscore (stripExtension name.data) = some 0
           ∧ 1 < (stripExtension name.data).length)) := by
  constructor
  · intro hemp
    by_contra hne
    rw [not_or] at hne
    exact parseInstanceNameCore_base_ne_empty (stripExtension name.data)
      hne.1 hne.2 hemp
  · exact parseInstanceNameCore_base_empty_of (stripExtension name.data)

/-- C2 counterexample: JavaScript `parseInt` accepts `"-5"` (value `-5`)
and `"12abc"` (value `12`), so `"-5_3_x"` and `"12abc_5"` take the integer
branch instead of falling through — `numCustomers`/`numVehicles` are
present, contradicting the claim that such inputs yield absent sizes. -/
theorem c2_counterexample :
    (parseGenericInstanceName "-5_3_x").numCustomers = some (-5)
    ∧ (parseGenericInstanceName "-5_3_x").numVehicles = some 3
    ∧ (parseGenericInstanceName "12abc_5").numCustomers = some 12 := by decide

/-- C2 (amended): the integer check follows JavaScript `parseInt` — a
segment parses iff, after optional whitespace and sign, it begins with a
digit; segments such as `"-5"` and `"12abc"` are accepted. Only inputs
with fewer than two segments, or whose first or second segment has no
parseable integer prefix, fall through to steps 4/5 with absent
`numCustomers` and `numVehicles`. -/
theorem c2_integer_check_fallthrough (name : String)
    (h : (splitUnd (stripExtension name.data)).length < 2
       ∨ (∃ p, (splitUnd (stripExtension name.data)).head? = some p
              ∧ jsParseInt p = none)
       ∨ (∃ p, (splitUnd (stripExtension name.data)).get? 1 = some p
              ∧ jsParseInt p = none)) :
    (parseGenericInstanceName name).numCustomers = none
    ∧ (parseGenericInstanceName name).numVehicles = none := by
  unfold parseGenericInstanceName parseInstanceNameCore
  cases hp : splitUnd (stripExtension name.data) with
  | nil => exact fallbackParse_sizes _
  | cons p0 tl =>
      cases tl with
      | nil => exact fallbackParse_sizes _
      | cons p1 rest =>
          rw [hp] at h
          cases hq0 : jsParseInt p0 with
          | none =>
              simp only [hq0]
              exact fallbackParse_sizes _
          | some n0 =>
              cases hq1 : jsParseInt p1 with
              | none =>
                  simp only [hq0, hq1]
                  exact fallbackParse_sizes _
              | some n1 =>
                  exfalso
                  rcases h with h | ⟨p, hpp, hnone⟩ | ⟨p, hpp, hnone⟩
                  · simp at h; omega
                  · simp only [List.head?_cons, Option.some.injEq] at hpp
                    rw [← hpp] at hnone
                    rw [hq0] at hnone
                    exact Option.noConfusion hnone
                  · simp only [List.get?_cons_succ, List.get?_cons_zero,
                      Option.some.injEq] at hpp
                    rw [← hpp] at hnone
                    rw [hq1] at hnone
                    exact Option.noConfusion hnone

/-- C2 witness: the amended theorem applied to `"abc_def"`, whose first
segment has no integer prefix. -/
theorem c2_integer_check_fallthrough_witness :
    (parseGenericInstanceName "abc_def").numCustomers = none
    ∧ (parseGenericInstanceName "abc_def").numVehicles = none :=
  c2_integer_check_fallthrough "abc_def"
    (Or.inr (Or.inl ⟨"abc".data, by decide, by decide⟩))

/-- C1 counterexample: a decoded log line with `Result = "abc"` (and a
numeric `Time`) is not unsolved under the `"--"` sentinel test, so the
record has `isUnsolved = false` with `score = NaN` — a solved record
whose score is not a finite number, contradicting the claimed invariant. -/
theorem c1_counterexample :
    (parseLogEntries "a.log"
      [some { Instance := "i", Time := "1.0", Result := "abc", Solution := "" }]).map
      (fun it => (it.isUnsolved, it.score))
    = [(false, some JNum.nan)] := by decide

/-- C1 (amended): every record produced by the Log Format Parser or the
Leaderboard Format Parser satisfies `score = null` iff `isUnsolved`; when
`isUnsolved = false` the score is a number, but it may be NaN (or
infinite) when the raw numeric text is malformed, since `parseFloat`
results are not validated. -/
theorem c1_score_null_iff_unsolved :
    (∀ (fn : String) (lines : List (Option LogEntry)) it,
      it ∈ parseLogEntries fn lines → (it.score = none ↔ it.isUnsolved = true))
    ∧ (∀ (fn : String) (payload : LeaderboardPayload) it,
      it ∈ parseLeaderboardHtmlToUnifiedData fn payload →
        (it.score = none ↔ it.isUnsolved = true)) := by
  constructor
  · intro fn lines it hmem
    induction lines with
    | nil => simp [parseLogEntries] at hmem
    | cons hd tl ih =>
        cases hd with
        | none => exact ih (by simpa [parseLogEntries] using hmem)
        | some e =>
            rcases List.mem_cons.mp hmem with h | h
            · rw [h]; exact mkLogItem_score_iff fn e
            · exact ih h
  · intro fn payload it hmem
    simp only [parseLeaderboardHtmlToUnifiedData, List.mem_flatMap,
      List.mem_filterMap] at hmem
    obtain ⟨entry, hentry, col, hcol, hsome⟩ := hmem
    cases hcell : cellLookup entry.cells col with
    | none => rw [hcell] at hsome; exact Option.noConfusion hsome
    | some cell =>
        rw [hcell] at hsome
        injection hsome with hsome
        rw [← hsome]
        exact mkLBItem_score_iff fn (participantNameOf entry.name) col cell

/-- C1 witness: the amended invariant applied to a one-line log input. -/
theorem c1_score_null_iff_unsolved_witness :
    ((mkLogItem "a.log" { Instance := "i", Time := "--", Result := "--", Solution := "" }).score
        = none
      ↔ (mkLogItem "a.log" { Instance := "i", Time := "--", Result := "--", Solution := "" }).isUnsolved
        = true) :=
  c1_score_null_iff_unsolved.1 "a.log"
    [some { Instance := "i", Time := "--", Result := "--", Solution := "" }] _
    (by decide)

/-- C4 counterexample: the cell text `"--[5.0]"` matches the claim's
regex (zero whitespace before the bracket) yet does not start with the
literal `"-- ["`, so the code's prefix test sends it to the solved
branch: `isUnsolved = false` with `score = parseFloat("--") = NaN` and
`time = 5`, contradicting the claimed unsolved outcome. -/
theorem c4_counterexample :
    (parseLeaderboardHtmlToUnifiedData "lb.html"
      { columns := ["10_3_1"],
        entries := [{ name := some "A", cells := [("10_3_1", some "--[5.0]")] }] }).map
      (fun it => (it.isUnsolved, it.score, it.time))
    = [(false, some JNum.nan, some (JNum.num ⟨50, 10⟩))] := by decide

/-- C4 (amended): a cell whose trimmed text is exactly `"--"`, the empty
string, or starts with the literal `"-- ["` yields an unsolved record
(`isUnsolved = true`, `score = null`) whose `time` is the first bracketed
numeral found by the unanchored time regex when one exists and `null`
otherwise; a regex-shaped cell with no space before the bracket (such as
`"--[5.0]"`) instead takes the solved branch. -/
theorem c4_unsolved_cell_rule (fn pname col cell : String)
    (h : jsTrim cell.data = "--".data ∨ jsTrim cell.data = []
       ∨ "-- [".data.isPrefixOf (jsTrim cell.data)) :
    (mkLBItem fn pname col cell).isUnsolved = true
    ∧ (mkLBItem fn pname col cell).score = none
    ∧ (mkLBItem fn pname col cell).time
        = (searchBracketTime (jsTrim cell.data)).map (fun ds => jsParseFloat ds) := by
  unfold mkLBItem parseLeaderboardCell
  have hcond : (jsTrim cell.data = "--".data || decide (jsTrim cell.data = [])
      || "-- [".data.isPrefixOf (jsTrim cell.data)) = true := by
    rcases h with h | h | h <;> simp [h]
  rw [hcond]
  simp only [if_true]
  refine ⟨by trivial, by trivial, ?_⟩
  cases hs : searchBracketTime (jsTrim cell.data) <;> simp [hs]

/-- C4 witness: the amended rule applied to the cell text `"-- [3]"`. -/
theorem c4_unsolved_cell_rule_witness :
    ("-- [".data.isPrefixOf (jsTrim "-- [3]".data))
    ∧ ((mkLBItem "lb.html" "A" "c" "-- [3]").isUnsolved = true
      ∧ (mkLBItem "lb.html" "A" "c" "-- [3]").score = none
      ∧ (mkLBItem "lb.html" "A" "c" "-- [3]").time
          = (searchBracketTime (jsTrim "-- [3]".data)).map (fun ds => jsParseFloat ds)) :=
  ⟨by decide, c4_unsolved_cell_rule "lb.html" "A" "c" "-- [3]"
    (Or.inr (Or.inr (by decide)))⟩

/-- C5 counterexample: two identical solved records of owner `"A"` on the
single instance `"i"` (one distinct instance) produce `bestSolutions = 2`:
the second pass counts matching records, not distinct instances. -/
theorem c5_counterexample :
    (alistFind (calculateUnifiedMetrics
        [mkSample "s" "A" "i" (some (jn 1)) false,
         mkSample "s" "A" "i" (some (jn 1)) false]) "A").map
      (fun m => m.bestSolutions) = some 2
    ∧ (([mkSample "s" "A" "i" (some (jn 1)) false,
         mkSample "s" "A" "i" (some (jn 1)) false].map
          (fun it => it.instName)).eraseDups).length = 1 := by decide

/-- C5 (amended): each owner's `bestSolutions` equals the number of that
owner's solved records whose score is `===`-equal to the instance's entry
in the first-pass best-score map — a per-record count, which coincides
with the distinct-instance count only when the owner has at most one
solved record per instance. -/
theorem c5_best_counts_records (data : List UnifiedDataItem) (o : String)
    (m : OwnerMetrics)
    (h : alistFind (calculateUnifiedMetrics data) o = some m) :
    m.bestSolutions = data.countP (isBestRecord (instanceBestScores data) o) :=
  bestSolutions_char data o m h

/-- C5 witness: the per-record characterization on a one-record list. -/
theorem c5_best_counts_records_witness :
    alistFind (calculateUnifiedMetrics [mkSample "s" "A" "i" (some (jn 1)) false]) "A"
      = some { totalScore := JNum.num ⟨1, 1⟩, avgScore := JNum.num ⟨1, 1⟩,
               solvedCount := 1, totalProblems := 1, bestSolutions := 1, bySize := [] }
    ∧ ({ totalScore := JNum.num ⟨1, 1⟩, avgScore := JNum.num ⟨1, 1⟩,
         solvedCount := 1, totalProblems := 1, bestSolutions := 1,
         bySize := [] } : OwnerMetrics).bestSolutions
        = [mkSample "s" "A" "i" (some (jn 1)) false].countP
            (isBestRecord
              (instanceBestScores [mkSample "s" "A" "i" (some (jn 1)) false]) "A") :=
  ⟨by decide, c5_best_counts_records _ "A" _ (by decide)⟩

/-- C6: when two owners each hold a solved record at an instance's global
minimum score, both owners' `bestSolutions` counts are incremented — ties
are never broken to a unique winner. -/
theorem c6_ties_all_count (data : List UnifiedDataItem) (a b i : String)
    (s : JRat) (ia ib : UnifiedDataItem)
    (hia : ia ∈ data) (hib : ib ∈ data)
    (hao : ia.entryOwner = a) (hbo : ib.entryOwner = b)
    (hai : ia.instName = i) (hbi : ib.instName = i)
    (hua : ia.isUnsolved = false) (hub : ib.isUnsolved = false)
    (hsa : ia.score = some (JNum.num s)) (hsb : ib.score = some (JNum.num s))
    (hbest : alistFind (instanceBestScores data) i = some (JNum.num s)) :
    (∃ ma, alistFind (calculateUnifiedMetrics data) a = some ma
         ∧ 1 ≤ ma.bestSolutions)
    ∧ (∃ mb, alistFind (calculateUnifiedMetrics data) b = some mb
         ∧ 1 ≤ mb.bestSolutions) := by
  have key : ∀ (o : String) (it : UnifiedDataItem), it ∈ data →
      it.entryOwner = o → it.instName = i → it.isUnsolved = false →
      it.score = some (JNum.num s) →
      ∃ m, alistFind (calculateUnifiedMetrics data) o = some m
         ∧ 1 ≤ m.bestSolutions := by
    intro o it hmem ho hi hu hs
    apply bestSolutions_ge_one data o it hmem ho
    unfold isBestRecord
    rw [ho, hu, hs, hi, hbest]
    simp [JNum.jeq, JRat.eqv]
  exact ⟨key a ia hia hao hai hua hsa, key b ib hib hbo hbi hub hsb⟩

/-- C6 witness: owners `"A"` and `"B"` tie at score 5 on instance `"i"`
(owner `"C"` scores 7); both tied owners get `bestSolutions ≥ 1`. -/
theorem c6_ties_all_count_witness :
    (∃ ma, alistFind (calculateUnifiedMetrics
        [mkSample "s" "A" "i" (some (jn 5)) false,
         mkSample "s" "B" "i" (some (jn 5)) false,
         mkSample "s" "C" "i" (some (jn 7)) false]) "A" = some ma
       ∧ 1 ≤ ma.bestSolutions)
    ∧ (∃ mb, alistFind (calculateUnifiedMetrics
        [mkSample "s" "A" "i" (some (jn 5)) false,
         mkSample "s" "B" "i" (some (jn 5)) false,
         mkSample "s" "C" "i" (some (jn 7)) false]) "B" = some mb
       ∧ 1 ≤ mb.bestSolutions) :=
  c6_ties_all_count _ "A" "B" "i" (JRat.ofInt 5)
    (mkSample "s" "A" "i" (some (jn 5)) false)
    (mkSample "s" "B" "i" (some (jn 5)) false)
    (by decide) (by decide) rfl rfl rfl rfl rfl rfl rfl rfl (by decide)

/-- C7: an owner all of whose records are unsolved gets the `Infinity`
sentinel as `avgScore` and `bestSolutions = 0`. -/
theorem c7_all_unsolved_sentinel (data : List UnifiedDataItem) (o : String)
    (it0 : UnifiedDataItem) (hmem : it0 ∈ data) (ho : it0.entryOwner = o)
    (hall : ∀ it ∈ data, it.entryOwner = o → it.isUnsolved = true) :
    ∃ m, alistFind (calculateUnifiedMetrics data) o = some m
       ∧ m.avgScore = JNum.inf ∧ m.bestSolutions = 0 := by
  obtain ⟨m, hm⟩ := find_calc_of_mem data o it0 hmem ho
  refine ⟨m, hm, ?_, ?_⟩
  · obtain ⟨m1, hm1, hfin⟩ := find_calc_split data o m hm
    have hsc := (pass1_fields data o m1 hm1).2
    have hzero : (data.filter (fun it => it.entryOwner == o)).countP
        (fun it => !it.isUnsolved && it.score.isSome) = 0 := by
      apply List.countP_eq_zero.mpr
      intro it hit
      have hmemf := List.mem_filter.mp hit
      have howner : it.entryOwner = o := by simpa using hmemf.2
      simp [hall it hmemf.1 howner]
    rw [hfin]
    unfold finalizeOwner
    simp only [hsc, hzero]
    simp
  · rw [bestSolutions_char data o m hm]
    apply List.countP_eq_zero.mpr
    intro it hit
    unfold isBestRecord
    by_cases howner : it.entryOwner = o
    · simp [hall it hit howner]
    · simp [howner]

/-- C7 witness: a single unsolved record for owner `"X"`. -/
theorem c7_all_unsolved_sentinel_witness :
    ∃ m, alistFind (calculateUnifiedMetrics [mkSample "s" "X" "i" none true]) "X"
        = some m
      ∧ m.avgScore = JNum.inf ∧ m.bestSolutions = 0 :=
  c7_all_unsolved_sentinel _ "X" (mkSample "s" "X" "i" none true)
    (by decide) rfl (by decide)
